import Mathlib

/-!
Verification of the event-normalizer and compatibility-resolver core of the
`perplexity-web-api` crate.

The development shallowly embeds the two source files:
  * `crates/perplexity-web-api/src/parse.rs` — the SSE event normalizer
    (`parse_sse_event` and its helpers);
  * `crates/perplexity-web-api/src/config.rs` — the mode/model compatibility
    table (`model_preference`).

JSON values (`serde_json::Value`) are modelled by the inductive type `Json`;
JSON objects (`serde_json::Map<String, Value>`) are modelled by association
lists with map semantics (`mapGet` looks up the first occurrence of a key,
`mapInsert` replaces the value at an existing key, parsed objects never hold
a duplicate key).  JSON numbers are kept as their validated numeric lexeme:
no part of the program inspects a numeric value, only parse success matters.
`serde_json::from_str` is modelled by the executable parser `fromStr`, a
recursive-descent parser for the RFC 8259 grammar (whitespace, literals,
numbers, strings with escape and surrogate-pair handling, arrays, objects,
full-input consumption) returning `none` on any malformed input.
-/

/-- Model of `serde_json::Value`.  Numbers are stored as their validated
lexeme (see the file comment). -/
inductive Json where
  | null : Json
  | bool (b : Bool) : Json
  | num (lit : String) : Json
  | str (s : String) : Json
  | arr (elems : List Json) : Json
  | obj (members : List (String × Json)) : Json

/-- Lookup in an association-list map: the value at the first occurrence of
the key, as `serde_json::Map::get`. -/
def mapGet : List (String × Json) → String → Option Json
  | [], _ => none
  | (k, v) :: rest, key => if k = key then some v else mapGet rest key

/-- Insertion into an association-list map: replace the value at the key if
present, append otherwise, as `serde_json::Map::insert`. -/
def mapInsert : List (String × Json) → String → Json → List (String × Json)
  | [], key, v => [(key, v)]
  | (k, w) :: rest, key, v =>
    if k = key then (key, v) :: rest else (k, w) :: mapInsert rest key v

/-- Model of `serde_json::Value::as_str`. -/
def Json.asStr : Json → Option String
  | .str s => some s
  | _ => none

/-- Model of `serde_json::Value::as_array`. -/
def Json.asArray : Json → Option (List Json)
  | .arr elems => some elems
  | _ => none

/-- Model of `serde_json::Value::get` with a string index: key lookup on an
object value, `none` on every other value. -/
def Json.getKey : Json → String → Option Json
  | .obj members, key => mapGet members key
  | _, _ => none

/-! ### The JSON text parser (model of `serde_json::from_str`) -/

/-- The character `"` (0x22), named to keep delimiter characters uniform. -/
def quoteChar : Char := Char.ofNat 34

/-- The character `\` (0x5C). -/
def backslashChar : Char := Char.ofNat 92

/-- The character `\x7b` (0x7B, the opening curly bracket). -/
def lbraceChar : Char := Char.ofNat 123

/-- The character `\x7d` (0x7D, the closing curly bracket). -/
def rbraceChar : Char := Char.ofNat 125

/-- JSON insignificant whitespace: space, tab, line feed, carriage return. -/
def isJsonWs (c : Char) : Bool :=
  c = ' ' ∨ c = Char.ofNat 9 ∨ c = Char.ofNat 10 ∨ c = Char.ofNat 13

/-- Drop leading JSON whitespace. -/
def skipWs : List Char → List Char
  | [] => []
  | c :: cs => if isJsonWs c then skipWs cs else c :: cs

/-- Value of one hexadecimal digit. -/
def hexVal (c : Char) : Option Nat :=
  if '0' ≤ c ∧ c ≤ '9' then some (c.toNat - '0'.toNat)
  else if 'a' ≤ c ∧ c ≤ 'f' then some (c.toNat - 'a'.toNat + 10)
  else if 'A' ≤ c ∧ c ≤ 'F' then some (c.toNat - 'A'.toNat + 10)
  else none

/-- Four hexadecimal digits, as in a `\uXXXX` escape. -/
def parseHex4 : List Char → Option (Nat × List Char)
  | a :: b :: c :: d :: rest => do
    let x ← hexVal a
    let y ← hexVal b
    let z ← hexVal c
    let w ← hexVal d
    some ((((x * 16 + y) * 16 + z) * 16 + w), rest)
  | _ => none

/-- Body of a JSON string after the opening quote: unescaped characters
(control characters below 0x20 are rejected), the short escapes, and
`\uXXXX` escapes with strict surrogate-pair handling (a lone surrogate is a
parse error, as in `serde_json::from_str`).  Returns the decoded characters
and the input remaining after the closing quote. -/
def parseStringChars : Nat → List Char → Option (List Char × List Char)
  | 0, _ => none
  | _ + 1, [] => none
  | fuel + 1, c :: cs =>
    if c = quoteChar then some ([], cs)
    else if c = backslashChar then
      match cs with
      | [] => none
      | e :: cs2 =>
        let cont := fun (d : Char) (rest : List Char) =>
          (parseStringChars fuel rest).map (fun p => (d :: p.1, p.2))
        if e = quoteChar then cont quoteChar cs2
        else if e = backslashChar then cont backslashChar cs2
        else if e = '/' then cont '/' cs2
        else if e = 'b' then cont (Char.ofNat 8) cs2
        else if e = 'f' then cont (Char.ofNat 12) cs2
        else if e = 'n' then cont (Char.ofNat 10) cs2
        else if e = 'r' then cont (Char.ofNat 13) cs2
        else if e = 't' then cont (Char.ofNat 9) cs2
        else if e = 'u' then
          match parseHex4 cs2 with
          | none => none
          | some (n, cs3) =>
            if n < 0xD800 ∨ 0xDFFF < n then cont (Char.ofNat n) cs3
            else if 0xDC00 ≤ n then none
            else
              match cs3 with
              | b1 :: u1 :: cs4 =>
                if b1 = backslashChar ∧ u1 = 'u' then
                  match parseHex4 cs4 with
                  | none => none
                  | some (n2, cs5) =>
                    if 0xDC00 ≤ n2 ∧ n2 ≤ 0xDFFF then
                      cont (Char.ofNat (0x10000 + (n - 0xD800) * 0x400 + (n2 - 0xDC00))) cs5
                    else none
                else none
              | _ => none
        else none
    else if c.toNat < 0x20 then none
    else (parseStringChars fuel cs).map (fun p => (c :: p.1, p.2))

/-- Longest prefix of decimal digits, and the rest. -/
def takeDigits : List Char → List Char × List Char
  | [] => ([], [])
  | c :: cs =>
    if c.isDigit then
      let p := takeDigits cs
      (c :: p.1, p.2)
    else ([], c :: cs)

/-- Optional exponent part of a JSON number. -/
def parseExpPart (ip : List Char) (cs : List Char) : Option (String × List Char) :=
  match cs with
  | [] => some (String.mk ip, [])
  | c :: rest =>
    if c = 'e' ∨ c = 'E' then
      let sp : List Char × List Char :=
        match rest with
        | '+' :: r => (['+'], r)
        | '-' :: r => (['-'], r)
        | _ => ([], rest)
      match takeDigits sp.2 with
      | ([], _) => none
      | (ds, cs2) => some (String.mk (ip ++ c :: (sp.1 ++ ds)), cs2)
    else some (String.mk ip, c :: rest)

/-- Optional fraction part of a JSON number followed by the optional
exponent; a decimal point with no digit after it is a parse error. -/
def parseFracExp (ip : List Char) (cs : List Char) : Option (String × List Char) :=
  match cs with
  | '.' :: rest =>
    (match takeDigits rest with
     | ([], _) => none
     | (ds, cs2) => parseExpPart (ip ++ '.' :: ds) cs2)
  | _ => parseExpPart ip cs

/-- A JSON number lexeme: optional minus sign, integer part with no leading
zero, optional fraction and exponent. -/
def parseNumber (cs : List Char) : Option (String × List Char) :=
  let sp : List Char × List Char :=
    match cs with
    | '-' :: rest => (['-'], rest)
    | _ => ([], cs)
  match sp.2 with
  | [] => none
  | c :: rest =>
    if c = '0' then parseFracExp (sp.1 ++ ['0']) rest
    else if c.isDigit then
      let p := takeDigits rest
      parseFracExp (sp.1 ++ c :: p.1) p.2
    else none

/-- Object members collapsed into a map: entries are inserted in order, so a
later duplicate key overwrites an earlier one, as when `serde_json`
deserializes an object into its `Map`. -/
def buildObj (l : List (String × Json)) : List (String × Json) :=
  l.foldl (fun acc kv => mapInsert acc kv.1 kv.2) []

mutual

/-- One JSON value, preceded by optional whitespace. -/
def parseValue : Nat → List Char → Option (Json × List Char)
  | 0, _ => none
  | fuel + 1, cs =>
    match skipWs cs with
    | [] => none
    | c :: cs2 =>
      if c = 'n' then
        match cs2 with
        | 'u' :: 'l' :: 'l' :: r => some (Json.null, r)
        | _ => none
      else if c = 't' then
        match cs2 with
        | 'r' :: 'u' :: 'e' :: r => some (Json.bool true, r)
        | _ => none
      else if c = 'f' then
        match cs2 with
        | 'a' :: 'l' :: 's' :: 'e' :: r => some (Json.bool false, r)
        | _ => none
      else if c = quoteChar then
        (parseStringChars (cs2.length + 1) cs2).map
          (fun p => (Json.str (String.mk p.1), p.2))
      else if c = '[' then
        match skipWs cs2 with
        | ']' :: r => some (Json.arr [], r)
        | cs3 => (parseElems fuel cs3).map (fun p => (Json.arr p.1, p.2))
      else if c = lbraceChar then
        match skipWs cs2 with
        | [] => none
        | d :: cs3 =>
          if d = rbraceChar then some (Json.obj [], cs3)
          else (parseMembers fuel (d :: cs3)).map
            (fun p => (Json.obj (buildObj p.1), p.2))
      else if c = '-' ∨ c.isDigit then
        (parseNumber (c :: cs2)).map (fun p => (Json.num p.1, p.2))
      else none

/-- Comma-separated array elements up to the closing bracket. -/
def parseElems : Nat → List Char → Option (List Json × List Char)
  | 0, _ => none
  | fuel + 1, cs => do
    let (v, cs2) ← parseValue fuel cs
    match skipWs cs2 with
    | ',' :: cs3 => (parseElems fuel cs3).map (fun p => (v :: p.1, p.2))
    | ']' :: cs3 => some ([v], cs3)
    | _ => none

/-- Comma-separated object members up to the closing bracket. -/
def parseMembers : Nat → List Char → Option (List (String × Json) × List Char)
  | 0, _ => none
  | fuel + 1, cs =>
    match skipWs cs with
    | [] => none
    | c :: cs2 =>
      if c = quoteChar then
        match parseStringChars (cs2.length + 1) cs2 with
        | none => none
        | some (k, cs3) =>
          match skipWs cs3 with
          | ':' :: cs4 => do
            let (v, cs5) ← parseValue fuel cs4
            match skipWs cs5 with
            | ',' :: cs6 =>
              (parseMembers fuel cs6).map
                (fun p => ((String.mk k, v) :: p.1, p.2))
            | d :: cs6 =>
              if d = rbraceChar then some ([(String.mk k, v)], cs6) else none
            | [] => none
          | _ => none
      else none

end

/-- Model of `serde_json::from_str::<Value>`: parse one JSON value and
require that nothing but whitespace remains. -/
def fromStr (s : String) : Option Json :=
  match parseValue (2 * s.length + 2) s.data with
  | some (v, rest) => if skipWs rest = [] then some v else none
  | none => none

/-! ### The event normalizer (`parse.rs`) -/

/-- Model of `crate::error::Error` restricted to the variant `parse.rs`
produces (`Error::Json`, wrapping the serde error); the enum itself is
declared in `error.rs`, outside the included sources. -/
inductive Error where
  | Json : Error
deriving DecidableEq

/-- Model of `crate::types::SearchEvent` as constructed by
`parse_sse_event`; the struct is declared in `types.rs`, outside the
included sources, and its fields are read off the construction site
`SearchEvent { answer, chunks, backend_uuid, attachments, raw }`.  The
`raw` map (a `HashMap` in the source) is modelled by an association list;
only key lookup is ever performed on it. -/
structure SearchEvent where
  answer : Option String
  chunks : List Json
  backend_uuid : Option String
  attachments : List String
  raw : List (String × Json)

/-- Keys that are extracted from the raw JSON and stored in dedicated
fields (`EXTRACTED_KEYS` in `parse.rs`). -/
def EXTRACTED_KEYS : List String := ["answer", "chunks", "backend_uuid", "attachments"]

/-- Model of `parse_nested_text_field`: if the `text` field is a JSON
string, parse it and replace the field with the parsed value; on any other
shape, or on parse failure, leave the map unchanged. -/
def parse_nested_text_field (content : List (String × Json)) : List (String × Json) :=
  match mapGet content "text" with
  | none => content
  | some text_value =>
    match Json.asStr text_value with
    | none => content
    | some text_str =>
      match fromStr text_str with
      | some parsed => mapInsert content "text" parsed
      | none => content

/-- Model of `extract_string`: the value at the key, if it is a string. -/
def extract_string (content : List (String × Json)) (key : String) : Option String :=
  (mapGet content key).bind Json.asStr

/-- Model of `extract_string_array`: the string elements, in order, of the
array at the key; the empty list if the key is absent or not an array. -/
def extract_string_array (content : List (String × Json)) (key : String) : List String :=
  (((mapGet content key).bind Json.asArray).map
    (fun arr => arr.filterMap Json.asStr)).getD []

/-- Model of `extract_from_final_step`: from the `text` array, the first
step whose `step_type` is `"FINAL"`; its `content.answer` string is parsed
as JSON, and the answer and chunks are read from the parsed payload.  Each
`?` of the source is an `Option.bind`. -/
def extract_from_final_step (content : List (String × Json)) :
    Option (Option String × List Json) :=
  (mapGet content "text").bind fun text =>
  (Json.asArray text).bind fun steps =>
  (steps.find? (fun step =>
      (Json.getKey step "step_type").bind Json.asStr == some "FINAL")).bind fun final_step =>
  (Json.getKey final_step "content").bind fun step_content =>
  (Json.getKey step_content "answer").bind fun answer_value =>
  (Json.asStr answer_value).bind fun answer_str =>
  (fromStr answer_str).bind fun answer_data =>
  some ((Json.getKey answer_data "answer").bind Json.asStr,
        ((Json.getKey answer_data "chunks").bind Json.asArray).getD [])

/-- Model of `extract_answer_and_chunks`: the FINAL-step extraction if it
succeeds, otherwise the top-level `answer` string and `chunks` array. -/
def extract_answer_and_chunks (content : List (String × Json)) :
    Option String × List Json :=
  match extract_from_final_step content with
  | some p => p
  | none =>
    (extract_string content "answer",
     ((mapGet content "chunks").bind Json.asArray).getD [])

/-- Model of `build_raw_map`: the content map with the extracted keys
removed. -/
def build_raw_map (content : List (String × Json)) : List (String × Json) :=
  content.filter (fun kv => !(EXTRACTED_KEYS.contains kv.1))

/-- Body of `parse_sse_event` after the top-level parse: the nested `text`
replacement, the answer/chunks extraction, the two remaining field
extractions and the raw-map construction, in source order. -/
def parse_sse_event_obj (content0 : List (String × Json)) : SearchEvent :=
  let content := parse_nested_text_field content0
  let ac := extract_answer_and_chunks content
  let backend_uuid := extract_string content "backend_uuid"
  let attachments := extract_string_array content "attachments"
  let raw := build_raw_map content
  { answer := ac.1, chunks := ac.2, backend_uuid, attachments, raw }

/-- Model of `parse_sse_event`: `serde_json::from_str::<Map<String, Value>>`
succeeds exactly when the input is valid JSON whose top-level value is an
object; any other input produces `Error::Json`. -/
def parse_sse_event (json_str : String) : Except Error SearchEvent :=
  match fromStr json_str with
  | some (Json.obj content) => Except.ok (parse_sse_event_obj content)
  | _ => Except.error Error.Json

/-! ### The compatibility resolver (`config.rs`) -/

/-- Model of `crate::types::SearchMode`; the enum is declared in
`types.rs`, outside the included sources, with exactly the four modes the
`model_preference` match in `config.rs` covers (the spec fixes the same
closed set). -/
inductive SearchMode where
  | Auto : SearchMode
  | Pro : SearchMode
  | Reasoning : SearchMode
  | DeepResearch : SearchMode
deriving DecidableEq, Fintype

/-- Model of `crate::types::Model`; the enum is declared in `types.rs`,
outside the included sources.  Its constructors are the nine selectors
named in the `model_preference` match arms of `config.rs`; any further
selector of the source enum would fall into the same catch-all rejection
arms, so the theorems below are insensitive to the reconstruction. -/
inductive Model where
  | Sonar : Model
  | Gpt52 : Model
  | Claude45Sonnet : Model
  | Grok41 : Model
  | Gpt52Thinking : Model
  | Claude45SonnetThinking : Model
  | Gemini30Pro : Model
  | KimiK2Thinking : Model
  | Grok41Reasoning : Model
deriving DecidableEq, Fintype

/-- Model of `model_preference`: the preference token for the API payload,
`some token` when the mode+model combination is valid, `none` when the
model is incompatible with the mode.  The match arms mirror `config.rs`
exactly, including the per-mode catch-all rejections. -/
def model_preference (mode : SearchMode) (model : Option Model) : Option String :=
  match mode, model with
  | SearchMode.Auto, none => some "turbo"
  | SearchMode.Auto, some _ => none
  | SearchMode.Pro, none => some "pplx_pro"
  | SearchMode.Pro, some Model.Sonar => some "experimental"
  | SearchMode.Pro, some Model.Gpt52 => some "gpt52"
  | SearchMode.Pro, some Model.Claude45Sonnet => some "claude45sonnet"
  | SearchMode.Pro, some Model.Grok41 => some "grok41nonreasoning"
  | SearchMode.Pro, some _ => none
  | SearchMode.Reasoning, none => some "pplx_reasoning"
  | SearchMode.Reasoning, some Model.Gpt52Thinking => some "gpt52_thinking"
  | SearchMode.Reasoning, some Model.Claude45SonnetThinking => some "claude45sonnetthinking"
  | SearchMode.Reasoning, some Model.Gemini30Pro => some "gemini30pro"
  | SearchMode.Reasoning, some Model.KimiK2Thinking => some "kimik2thinking"
  | SearchMode.Reasoning, some Model.Grok41Reasoning => some "grok41reasoning"
  | SearchMode.Reasoning, some _ => none
  | SearchMode.DeepResearch, none => some "pplx_alpha"
  | SearchMode.DeepResearch, some _ => none

/-- The model family of each mode: the selectors with a non-rejecting
`Some` arm for that mode in the `model_preference` match (Auto and
DeepResearch admit no explicit selector). -/
def modeFamily : SearchMode → List Model
  | SearchMode.Auto => []
  | SearchMode.Pro => [Model.Sonar, Model.Gpt52, Model.Claude45Sonnet, Model.Grok41]
  | SearchMode.Reasoning =>
    [Model.Gpt52Thinking, Model.Claude45SonnetThinking, Model.Gemini30Pro,
     Model.KimiK2Thinking, Model.Grok41Reasoning]
  | SearchMode.DeepResearch => []

/-! ### Concrete inputs used by the witnesses and counterexamples -/

/-- Payload string of the second FINAL step of `stepsOfTwoFinals`:
`{"answer":"X"}` (braces escaped). -/
def answerPayloadStr : String := "\x7b\"answer\":\"X\"\x7d"

/-- A steps array whose first FINAL step has no `content`, while a later
FINAL step carries a parseable `content.answer` payload. -/
def stepsOfTwoFinals : List Json :=
  [Json.obj [("step_type", Json.str "FINAL")],
   Json.obj [("step_type", Json.str "FINAL"),
             ("content", Json.obj [("answer", Json.str answerPayloadStr)])]]

/-- Input object for the C1 counterexample: a two-FINAL steps array plus a
conflicting top-level answer. -/
def inputTwoFinals : List (String × Json) :=
  [("text", Json.arr stepsOfTwoFinals), ("answer", Json.str "Top")]

/-- Payload string `{"answer":"Nested answer","chunks":[{"id":1}]}` (braces
escaped), as in the repository's nested-text test. -/
def nestedPayloadStr : String :=
  "\x7b\"answer\":\"Nested answer\",\"chunks\":[\x7b\"id\":1\x7d]\x7d"

/-- Steps array whose single FINAL step (preceded by a SEARCH step) carries
the parseable payload `nestedPayloadStr`. -/
def stepsOneFinal : List Json :=
  [Json.obj [("step_type", Json.str "SEARCH"), ("content", Json.obj [])],
   Json.obj [("step_type", Json.str "FINAL"),
             ("content", Json.obj [("answer", Json.str nestedPayloadStr)])]]

/-- Input object for the C1 witness: structured extraction succeeds while
conflicting top-level `answer` and `chunks` fields are present. -/
def inputOneFinal : List (String × Json) :=
  [("text", Json.arr stepsOneFinal),
   ("answer", Json.str "Top"),
   ("chunks", Json.arr [Json.obj [("a", Json.null)], Json.obj []])]

/-- The parse of `nestedPayloadStr`. -/
def nestedPayload : Json :=
  Json.obj [("answer", Json.str "Nested answer"),
            ("chunks", Json.arr [Json.obj [("id", Json.num "1")]])]

/-- Input object for the C2 witness, after the repository's fallback test:
the `text` string parses to a steps array with no FINAL step, and top-level
`answer` and `chunks` are present. -/
def inputNoFinal : List (String × Json) :=
  [("text", Json.str "[\x7b\"step_type\":\"SEARCH\",\"content\":\x7b\x7d\x7d]"),
   ("answer", Json.str "Top level answer"),
   ("chunks", Json.arr [Json.obj [("source", Json.str "web")]])]

/-- Input object for the C3 witness, after the repository's raw-map test:
all four extracted keys plus two extra keys. -/
def inputAllKeys : List (String × Json) :=
  [("answer", Json.str "Test"), ("chunks", Json.arr []),
   ("backend_uuid", Json.str "uuid"), ("attachments", Json.arr []),
   ("extra_field", Json.str "should be in raw"), ("another", Json.num "123")]

/-- Input object for the C8 witness: an `attachments` array mixing string
and non-string elements. -/
def inputMixedAttachments : List (String × Json) :=
  [("attachments", Json.arr [Json.str "url1", Json.num "2", Json.str "url2"])]

/-- Payload string `{"chunks":[{"id":1}]}` (braces escaped): parses as JSON
but holds no `answer` text field. -/
def chunksOnlyPayloadStr : String := "\x7b\"chunks\":[\x7b\"id\":1\x7d]\x7d"

/-- The parse of `chunksOnlyPayloadStr`. -/
def chunksOnlyPayload : Json :=
  Json.obj [("chunks", Json.arr [Json.obj [("id", Json.num "1")]])]

/-- Input object for the C10 counterexample: the first FINAL step has no
`content`, a later FINAL step has an answer payload without an `answer`
field, and a top-level answer is present. -/
def inputTwoFinalsNoAnswer : List (String × Json) :=
  [("text", Json.arr
     [Json.obj [("step_type", Json.str "FINAL")],
      Json.obj [("step_type", Json.str "FINAL"),
                ("content", Json.obj [("answer", Json.str chunksOnlyPayloadStr)])]]),
   ("answer", Json.str "Top")]

/-- Steps array of `inputFinalNoAnswer`. -/
def stepsFinalNoAnswer : List Json :=
  [Json.obj [("step_type", Json.str "FINAL"),
             ("content", Json.obj [("answer", Json.str chunksOnlyPayloadStr)])]]

/-- Input object for the C10 witness: the first (and only) FINAL step's
answer payload parses but has no `answer` field; a top-level answer is
present and must be ignored. -/
def inputFinalNoAnswer : List (String × Json) :=
  [("text", Json.arr stepsFinalNoAnswer), ("answer", Json.str "Top")]

/-! ### Map lemmas -/

/-- Lookup after insertion: the inserted value at the inserted key, the old
map elsewhere. -/
theorem mapGet_mapInsert (c : List (String × Json)) (key : String) (v : Json) (q : String) :
    mapGet (mapInsert c key v) q = if key = q then some v else mapGet c q := by
  induction c with
  | nil => simp [mapInsert, mapGet]
  | cons kv rest ih =>
    obtain ⟨k, w⟩ := kv
    by_cases hk : k = key
    · subst hk
      simp only [mapInsert, if_pos rfl, mapGet]
      split_ifs <;> simp_all
    · simp only [mapInsert, if_neg hk, mapGet, ih]
      split_ifs <;> simp_all

/-- Lookup in the raw map: `none` at every extracted key, the source map at
every other key. -/
theorem mapGet_build_raw_map (c : List (String × Json)) (q : String) :
    mapGet (build_raw_map c) q = if q ∈ EXTRACTED_KEYS then none else mapGet c q := by
  induction c with
  | nil => simp [build_raw_map, mapGet]
  | cons kv rest ih =>
    obtain ⟨k, w⟩ := kv
    by_cases hk : k ∈ EXTRACTED_KEYS
    · have hc : (!(EXTRACTED_KEYS.contains k)) = false := by
        simpa [List.contains, List.elem_iff]
      have hfil : List.filter (fun kv => !(EXTRACTED_KEYS.contains kv.1)) ((k, w) :: rest)
          = List.filter (fun kv => !(EXTRACTED_KEYS.contains kv.1)) rest := by
        simp [List.filter_cons, hc, hk]
      simp only [build_raw_map] at ih ⊢
      rw [hfil, ih]
      by_cases hq : q ∈ EXTRACTED_KEYS
      · rw [if_pos hq, if_pos hq]
      · rw [if_neg hq, if_neg hq]
        have hkq : ¬ k = q := fun h => hq (h ▸ hk)
        simp only [mapGet, if_neg hkq]
    · have hc : (!(EXTRACTED_KEYS.contains k)) = true := by
        simpa [List.contains, List.elem_iff]
      have hfil : List.filter (fun kv => !(EXTRACTED_KEYS.contains kv.1)) ((k, w) :: rest)
          = (k, w) :: List.filter (fun kv => !(EXTRACTED_KEYS.contains kv.1)) rest := by
        simp [List.filter_cons, hc, hk]
      simp only [build_raw_map] at ih ⊢
      rw [hfil]
      by_cases hkq : k = q
      · subst hkq
        rw [if_neg hk]
        simp [mapGet]
      · simp only [mapGet, if_neg hkq, ih]

/-- The nested-text replacement step only ever touches the key `text`. -/
theorem mapGet_parse_nested_text_field_ne (c : List (String × Json)) (q : String)
    (hq : q ≠ "text") :
    mapGet (parse_nested_text_field c) q = mapGet c q := by
  unfold parse_nested_text_field
  split
  · rfl
  · split
    · rfl
    · split
      · rw [mapGet_mapInsert, if_neg (fun h => hq h.symm)]
      · rfl

/-- The nested-text replacement step preserves the presence of the key
`text`. -/
theorem isSome_mapGet_parse_nested_text_field_text (c : List (String × Json)) :
    (mapGet (parse_nested_text_field c) "text").isSome = (mapGet c "text").isSome := by
  unfold parse_nested_text_field
  split
  · rfl
  next tv heq =>
    split
    · rfl
    next s heq2 =>
      split
      next parsed heq3 =>
        rw [mapGet_mapInsert, if_pos rfl, heq]
        rfl
      · rfl

/-! ### Pipeline helper lemmas -/

/-- Answer component of the normalizer output. -/
theorem parse_sse_event_obj_answer (m : List (String × Json)) :
    (parse_sse_event_obj m).answer
      = (extract_answer_and_chunks (parse_nested_text_field m)).1 := rfl

/-- Chunks component of the normalizer output. -/
theorem parse_sse_event_obj_chunks (m : List (String × Json)) :
    (parse_sse_event_obj m).chunks
      = (extract_answer_and_chunks (parse_nested_text_field m)).2 := rfl

/-- Attachments component of the normalizer output. -/
theorem parse_sse_event_obj_attachments (m : List (String × Json)) :
    (parse_sse_event_obj m).attachments
      = extract_string_array (parse_nested_text_field m) "attachments" := rfl

/-- Raw-map component of the normalizer output. -/
theorem parse_sse_event_obj_raw (m : List (String × Json)) :
    (parse_sse_event_obj m).raw = build_raw_map (parse_nested_text_field m) := rfl

/-- Successful FINAL-step extraction, spelt out: when the `text` value is an
array whose first step with `step_type = "FINAL"` carries a `content.answer`
string that parses as JSON, the extraction returns exactly the answer and
chunks of the parsed payload. -/
theorem extract_from_final_step_eq (c : List (String × Json)) (steps : List Json)
    (e cnt av : Json) (s : String) (payload : Json)
    (h1 : mapGet c "text" = some (Json.arr steps))
    (h2 : steps.find? (fun step =>
        (Json.getKey step "step_type").bind Json.asStr == some "FINAL") = some e)
    (h3 : Json.getKey e "content" = some cnt)
    (h4 : Json.getKey cnt "answer" = some av)
    (h5 : Json.asStr av = some s)
    (h6 : fromStr s = some payload) :
    extract_from_final_step c =
      some ((Json.getKey payload "answer").bind Json.asStr,
            ((Json.getKey payload "chunks").bind Json.asArray).getD []) := by
  unfold extract_from_final_step
  rw [h1]
  simp only [Option.some_bind, Json.asArray]
  rw [h2]
  simp only [Option.some_bind]
  rw [h3]
  simp only [Option.some_bind]
  rw [h4]
  simp only [Option.some_bind]
  rw [h5]
  simp only [Option.some_bind]
  rw [h6]
  simp only [Option.some_bind]

/-! ### Claim C1 -/

/-- Claim C1, as stated, is false on the code: an input whose `text` array
contains an element with `step_type = "FINAL"` and a parseable
`content.answer` payload (with nested answer `"X"`), for which normalize
nevertheless answers from the top-level `answer` field — because the search
stops at the first FINAL step, which has no `content`, and falls back. -/
theorem c1_counterexample :
    (mapGet (parse_nested_text_field inputTwoFinals) "text"
      = some (Json.arr stepsOfTwoFinals)) ∧
    (∃ e, e ∈ stepsOfTwoFinals ∧
      (Json.getKey e "step_type").bind Json.asStr = some "FINAL" ∧
      ∃ s payload,
        (Json.getKey e "content").bind (fun c => Json.getKey c "answer")
          = some (Json.str s) ∧
        fromStr s = some payload ∧
        (Json.getKey payload "answer").bind Json.asStr = some "X") ∧
    (parse_sse_event_obj inputTwoFinals).answer = some "Top" ∧
    (some "Top" : Option String) ≠ some "X" := by
  refine ⟨rfl, ?_, rfl, by simp⟩
  refine ⟨Json.obj [("step_type", Json.str "FINAL"),
            ("content", Json.obj [("answer", Json.str answerPayloadStr)])],
          List.Mem.tail _ (List.Mem.head _), rfl,
          answerPayloadStr, Json.obj [("answer", Json.str "X")], rfl, rfl, rfl⟩

/-- Claim C1 amended: when the `text` value (after the in-place nested-parse
step) is an array whose FIRST element with `step_type = "FINAL"` has a
`content.answer` string that parses as JSON, the answer and chunks come
exclusively from that parsed payload — their value depends on the payload
alone, and the top-level `answer`/`chunks` fields are never consulted. -/
theorem c1_structured_extraction_priority (m : List (String × Json))
    (steps : List Json) (e cnt av : Json) (s : String) (payload : Json)
    (h1 : mapGet (parse_nested_text_field m) "text" = some (Json.arr steps))
    (h2 : steps.find? (fun step =>
        (Json.getKey step "step_type").bind Json.asStr == some "FINAL") = some e)
    (h3 : Json.getKey e "content" = some cnt)
    (h4 : Json.getKey cnt "answer" = some av)
    (h5 : Json.asStr av = some s)
    (h6 : fromStr s = some payload) :
    (parse_sse_event_obj m).answer = (Json.getKey payload "answer").bind Json.asStr ∧
    (parse_sse_event_obj m).chunks
      = ((Json.getKey payload "chunks").bind Json.asArray).getD [] := by
  have hE := extract_from_final_step_eq (parse_nested_text_field m)
    steps e cnt av s payload h1 h2 h3 h4 h5 h6
  rw [parse_sse_event_obj_answer, parse_sse_event_obj_chunks]
  unfold extract_answer_and_chunks
  rw [hE]
  exact ⟨rfl, rfl⟩

/-- Witness for C1 amended: on the repository's nested-text test input,
extended with conflicting top-level `answer` and `chunks`, the nested
payload wins. -/
theorem c1_witness :
    (parse_sse_event_obj inputOneFinal).answer = some "Nested answer" ∧
    (parse_sse_event_obj inputOneFinal).chunks = [Json.obj [("id", Json.num "1")]] := by
  have h := c1_structured_extraction_priority inputOneFinal stepsOneFinal
    (Json.obj [("step_type", Json.str "FINAL"),
               ("content", Json.obj [("answer", Json.str nestedPayloadStr)])])
    (Json.obj [("answer", Json.str nestedPayloadStr)])
    (Json.str nestedPayloadStr) nestedPayloadStr nestedPayload
    rfl rfl rfl rfl rfl rfl
  exact ⟨h.1.trans rfl, h.2.trans rfl⟩

/-! ### Claim C2 -/

/-- Claim C2: whenever structured (FINAL-step) extraction yields no result,
the answer is the top-level `answer` field if it is a string (absent
otherwise) and the chunks are the top-level `chunks` field if it is an
array (empty otherwise). -/
theorem c2_top_level_fallback (m : List (String × Json))
    (h : extract_from_final_step (parse_nested_text_field m) = none) :
    (parse_sse_event_obj m).answer = (mapGet m "answer").bind Json.asStr ∧
    (parse_sse_event_obj m).chunks
      = ((mapGet m "chunks").bind Json.asArray).getD [] := by
  rw [parse_sse_event_obj_answer, parse_sse_event_obj_chunks]
  unfold extract_answer_and_chunks
  rw [h]
  constructor
  · show extract_string (parse_nested_text_field m) "answer" = _
    unfold extract_string
    rw [mapGet_parse_nested_text_field_ne m "answer" (by decide)]
  · show ((mapGet (parse_nested_text_field m) "chunks").bind Json.asArray).getD [] = _
    rw [mapGet_parse_nested_text_field_ne m "chunks" (by decide)]

/-- Witness for C2: the repository's fallback test input — a `text` string
parsing to a steps array with no FINAL step — takes the top-level fields. -/
theorem c2_witness :
    (parse_sse_event_obj inputNoFinal).answer = some "Top level answer" ∧
    (parse_sse_event_obj inputNoFinal).chunks
      = [Json.obj [("source", Json.str "web")]] := by
  have h := c2_top_level_fallback inputNoFinal rfl
  exact ⟨h.1.trans rfl, h.2.trans rfl⟩

/-! ### Claim C3 -/

/-- Claim C3: the raw map of a normalized event holds none of the four
extracted keys, whatever their presence or type in the input, and at every
other key holds exactly what the (possibly text-replaced) input object
holds — in particular a key of the input object is present in `raw` exactly
when it is not an extracted key. -/
theorem c3_raw_key_policy (m : List (String × Json)) (k : String) :
    (k ∈ EXTRACTED_KEYS → mapGet (parse_sse_event_obj m).raw k = none) ∧
    (k ∉ EXTRACTED_KEYS →
      mapGet (parse_sse_event_obj m).raw k = mapGet (parse_nested_text_field m) k ∧
      (mapGet (parse_sse_event_obj m).raw k).isSome = (mapGet m k).isSome) := by
  constructor
  · intro hk
    rw [parse_sse_event_obj_raw, mapGet_build_raw_map, if_pos hk]
  · intro hk
    rw [parse_sse_event_obj_raw, mapGet_build_raw_map, if_neg hk]
    refine ⟨rfl, ?_⟩
    by_cases ht : k = "text"
    · subst ht
      exact isSome_mapGet_parse_nested_text_field_text m
    · rw [mapGet_parse_nested_text_field_ne m k ht]

/-- Witness for C3 on the repository's raw-map test input: the extracted
key `answer` disappears from `raw` while the extra key survives with its
value. -/
theorem c3_witness :
    mapGet (parse_sse_event_obj inputAllKeys).raw "answer" = none ∧
    mapGet (parse_sse_event_obj inputAllKeys).raw "extra_field"
      = some (Json.str "should be in raw") :=
  ⟨(c3_raw_key_policy inputAllKeys "answer").1 (by decide),
   (((c3_raw_key_policy inputAllKeys "extra_field").2 (by decide)).1).trans rfl⟩

/-! ### Claim C4 -/

/-- Claim C4, as stated, is false on the code: `"[]"` is well-formed JSON
(it parses to an empty array), yet normalization of `"[]"` returns the
JSON error, so "errors only on malformed JSON" does not hold. -/
theorem c4_counterexample :
    fromStr "[]" = some (Json.arr []) ∧
    parse_sse_event "[]" = Except.error Error.Json :=
  ⟨rfl, rfl⟩

/-- Claim C4 amended: a normalization call succeeds — producing an event
with every inner anomaly degraded to a default — exactly when the input
parses as a top-level JSON object; malformed JSON and well-formed non-object
JSON are the only aborting inputs. -/
theorem c4_abort_only_on_top_level_parse (s : String) :
    (∃ ev, parse_sse_event s = Except.ok ev)
      ↔ (∃ m, fromStr s = some (Json.obj m)) := by
  unfold parse_sse_event
  cases hv : fromStr s with
  | none => simp
  | some v => cases v <;> simp

/-! ### Claim C5 -/

/-- Claim C5: with no explicit model selector, every one of the four search
modes resolves to a defined default preference token, never to the
rejection value. -/
theorem c5_default_token_per_mode :
    ∀ mode : SearchMode, (model_preference mode none).isSome = true := by
  intro mode
  cases mode <;> rfl

/-! ### Claim C6 -/

/-- Claim C6: every (mode, explicit selector) pair in which the selector is
not a member of the mode's model family — in particular every selector of a
different mode's family, and every selector under Auto or DeepResearch —
resolves to the rejection value `none`, never to another mode's token. -/
theorem c6_invalid_selector_rejected :
    ∀ (mode : SearchMode) (model : Model),
      model ∉ modeFamily mode → model_preference mode (some model) = none := by
  decide

/-- Witness for C6: a reasoning-family selector requested under the Pro
mode is rejected. -/
theorem c6_witness :
    Model.Gpt52Thinking ∉ modeFamily SearchMode.Pro ∧
    model_preference SearchMode.Pro (some Model.Gpt52Thinking) = none :=
  ⟨by decide,
   c6_invalid_selector_rejected SearchMode.Pro Model.Gpt52Thinking (by decide)⟩

/-! ### Claim C7 -/

/-- Claim C7: on an input object whose `text` key holds a string, the call
succeeds, and the raw map stores under `text` the parsed structure when the
string parses as JSON, and the untouched original string when it does
not. -/
theorem c7_nested_text_replacement (js : String) (m : List (String × Json))
    (s : String)
    (hjs : fromStr js = some (Json.obj m))
    (h : mapGet m "text" = some (Json.str s)) :
    parse_sse_event js = Except.ok (parse_sse_event_obj m) ∧
    (∀ v, fromStr s = some v →
      mapGet (parse_sse_event_obj m).raw "text" = some v) ∧
    (fromStr s = none →
      mapGet (parse_sse_event_obj m).raw "text" = some (Json.str s)) := by
  have hraw : mapGet (parse_sse_event_obj m).raw "text"
      = mapGet (parse_nested_text_field m) "text" := by
    rw [parse_sse_event_obj_raw, mapGet_build_raw_map, if_neg (by decide)]
  refine ⟨?_, ?_, ?_⟩
  · unfold parse_sse_event
    rw [hjs]
  · intro v hv
    rw [hraw]
    unfold parse_nested_text_field
    rw [h]
    simp only [Json.asStr]
    rw [hv, mapGet_mapInsert, if_pos rfl]
  · intro hv
    rw [hraw]
    unfold parse_nested_text_field
    rw [h]
    simp only [Json.asStr]
    rw [hv, h]

/-- Witness for C7, both branches: a `text` string `"[1]"` that parses is
replaced by the parsed array in `raw`; a `text` string `"not json"` that
does not parse stays untouched and the call still succeeds. -/
theorem c7_witness :
    parse_sse_event "\x7b\"text\":\"[1]\"\x7d"
      = Except.ok (parse_sse_event_obj [("text", Json.str "[1]")]) ∧
    mapGet (parse_sse_event_obj [("text", Json.str "[1]")]).raw "text"
      = some (Json.arr [Json.num "1"]) ∧
    mapGet (parse_sse_event_obj [("text", Json.str "not json")]).raw "text"
      = some (Json.str "not json") :=
  ⟨(c7_nested_text_replacement "\x7b\"text\":\"[1]\"\x7d"
      [("text", Json.str "[1]")] "[1]" rfl rfl).1,
   (c7_nested_text_replacement "\x7b\"text\":\"[1]\"\x7d"
      [("text", Json.str "[1]")] "[1]" rfl rfl).2.1 (Json.arr [Json.num "1"]) rfl,
   (c7_nested_text_replacement "\x7b\"text\":\"not json\"\x7d"
      [("text", Json.str "not json")] "not json" rfl rfl).2.2 rfl⟩

/-! ### Claim C8 -/

/-- Claim C8: the normalized `attachments` field is the subsequence of
string elements of the top-level `attachments` array, in order; an absent
or non-array `attachments` yields the empty sequence. -/
theorem c8_attachments_string_filter (m : List (String × Json)) :
    (∀ xs, mapGet m "attachments" = some (Json.arr xs) →
      (parse_sse_event_obj m).attachments = xs.filterMap Json.asStr) ∧
    ((∀ xs, mapGet m "attachments" ≠ some (Json.arr xs)) →
      (parse_sse_event_obj m).attachments = []) := by
  have hg : mapGet (parse_nested_text_field m) "attachments"
      = mapGet m "attachments" :=
    mapGet_parse_nested_text_field_ne m "attachments" (by decide)
  constructor
  · intro xs hxs
    rw [parse_sse_event_obj_attachments]
    unfold extract_string_array
    rw [hg, hxs]
    rfl
  · intro hall
    rw [parse_sse_event_obj_attachments]
    unfold extract_string_array
    rw [hg]
    cases hx : mapGet m "attachments" with
    | none => rfl
    | some v =>
      cases v with
      | arr xs => exact absurd hx (hall xs)
      | null => rfl
      | bool b => rfl
      | num lit => rfl
      | str s => rfl
      | obj members => rfl

/-- Witness for C8: a mixed attachments array keeps exactly its string
elements in order. -/
theorem c8_witness :
    (parse_sse_event_obj inputMixedAttachments).attachments = ["url1", "url2"] :=
  ((c8_attachments_string_filter inputMixedAttachments).1
    [Json.str "url1", Json.num "2", Json.str "url2"] rfl).trans rfl

/-! ### Claim C9 -/

/-- Claim C9: an input that is valid JSON whose top-level value is not an
object is rejected with the JSON parse error. -/
theorem c9_non_object_top_level_rejected (s : String) (v : Json)
    (h1 : fromStr s = some v) (h2 : ∀ members, v ≠ Json.obj members) :
    parse_sse_event s = Except.error Error.Json := by
  unfold parse_sse_event
  rw [h1]
  cases v with
  | obj members => exact absurd rfl (h2 members)
  | null => rfl
  | bool b => rfl
  | num lit => rfl
  | str str => rfl
  | arr elems => rfl

/-- Witness for C9: the valid JSON array `"[2]"` is rejected. -/
theorem c9_witness : parse_sse_event "[2]" = Except.error Error.Json :=
  c9_non_object_top_level_rejected "[2]" (Json.arr [Json.num "2"]) rfl
    (fun _ h => Json.noConfusion h)

/-! ### Claim C10 -/

/-- Claim C10, as stated, is false on the code: an input containing a FINAL
step whose `content.answer` parses to a payload without an `answer` field
(only chunks), for which normalize nevertheless takes the top-level
`answer` — because the search stops at the input's first FINAL step, which
has no `content`, and falls back to the top-level fields. -/
theorem c10_counterexample :
    (∃ e, e ∈ [Json.obj [("step_type", Json.str "FINAL")],
               Json.obj [("step_type", Json.str "FINAL"),
                 ("content", Json.obj [("answer", Json.str chunksOnlyPayloadStr)])]] ∧
      (Json.getKey e "step_type").bind Json.asStr = some "FINAL" ∧
      (Json.getKey e "content").bind (fun c => Json.getKey c "answer")
        = some (Json.str chunksOnlyPayloadStr) ∧
      fromStr chunksOnlyPayloadStr = some chunksOnlyPayload ∧
      (Json.getKey chunksOnlyPayload "answer").bind Json.asStr = none) ∧
    mapGet inputTwoFinalsNoAnswer "text"
      = some (Json.arr [Json.obj [("step_type", Json.str "FINAL")],
               Json.obj [("step_type", Json.str "FINAL"),
                 ("content", Json.obj [("answer", Json.str chunksOnlyPayloadStr)])]]) ∧
    (parse_sse_event_obj inputTwoFinalsNoAnswer).answer = some "Top" ∧
    (some "Top" : Option String) ≠ none := by
  refine ⟨?_, rfl, rfl, by simp⟩
  exact ⟨Json.obj [("step_type", Json.str "FINAL"),
           ("content", Json.obj [("answer", Json.str chunksOnlyPayloadStr)])],
         List.Mem.tail _ (List.Mem.head _), rfl, rfl, rfl, rfl⟩

/-- Claim C10 amended: when the FIRST FINAL step's `content.answer` string
parses as JSON, structured extraction succeeds even if the parsed payload
has no usable `answer` text field: the answer is then absent and the chunks
are the payload's `chunks` array (or empty), the top-level fields being
ignored. -/
theorem c10_final_step_without_answer (m : List (String × Json))
    (steps : List Json) (e cnt av : Json) (s : String) (payload : Json)
    (h1 : mapGet (parse_nested_text_field m) "text" = some (Json.arr steps))
    (h2 : steps.find? (fun step =>
        (Json.getKey step "step_type").bind Json.asStr == some "FINAL") = some e)
    (h3 : Json.getKey e "content" = some cnt)
    (h4 : Json.getKey cnt "answer" = some av)
    (h5 : Json.asStr av = some s)
    (h6 : fromStr s = some payload)
    (h7 : (Json.getKey payload "answer").bind Json.asStr = none) :
    (parse_sse_event_obj m).answer = none ∧
    (parse_sse_event_obj m).chunks
      = ((Json.getKey payload "chunks").bind Json.asArray).getD [] := by
  have hE := extract_from_final_step_eq (parse_nested_text_field m)
    steps e cnt av s payload h1 h2 h3 h4 h5 h6
  rw [parse_sse_event_obj_answer, parse_sse_event_obj_chunks]
  unfold extract_answer_and_chunks
  rw [hE]
  exact ⟨h7, rfl⟩

/-- Witness for C10 amended: a single FINAL step whose payload holds only
chunks yields an absent answer and the payload's chunk, ignoring the
top-level answer. -/
theorem c10_witness :
    (parse_sse_event_obj inputFinalNoAnswer).answer = none ∧
    (parse_sse_event_obj inputFinalNoAnswer).chunks
      = [Json.obj [("id", Json.num "1")]] := by
  have h := c10_final_step_without_answer inputFinalNoAnswer stepsFinalNoAnswer
    (Json.obj [("step_type", Json.str "FINAL"),
               ("content", Json.obj [("answer", Json.str chunksOnlyPayloadStr)])])
    (Json.obj [("answer", Json.str chunksOnlyPayloadStr)])
    (Json.str chunksOnlyPayloadStr) chunksOnlyPayloadStr chunksOnlyPayload
    rfl rfl rfl rfl rfl rfl rfl
  exact ⟨h.1, h.2.trans rfl⟩
